import Mathlib

/-!
Verification of the Vue3-GateKeeper pipeline engine.

This file gives a shallow embedding of the repository's core code
(`src/gateKeeper.ts` and `src/gates/baseGate.ts`) and proves properties of it.

Modelling conventions:
* JavaScript `undefined`/`null` values are modelled with `Option` (`none` =
  absent/undefined/null).
* A JS object used as a string-keyed map (`gateClasses`, `gateInstances`, a
  `query` object) is modelled as an association list `List (String × α)` with
  first-match lookup (`getEntry`) and in-place update (`setEntry`); a JS object
  has at most one slot per key, which `setEntry` reflects by overwriting the
  first matching entry.
* A gate instance's `handle()` method is modelled by a pure function
  `EvalOptions → GateData` of the options it received from `setOptions`
  (the spec's contract: gates "must not mutate pipeline-global state beyond
  their own instance fields", and `handle` is always invoked right after
  `setOptions`).
* `async`/`await` in `GateKeeper.handle` is strictly sequential awaiting, so it
  is modelled by ordinary sequential composition; a thrown `Error` is modelled
  by `Except.error` carrying the message string.
* Object identity (JS reference equality) for gate instances is modelled by a
  numeric `instId` drawn from a counter `nextId` in the GateKeeper state; every
  run of a gate-class constructor increments the counter by exactly one, so
  "the constructor ran exactly once" is expressed as `nextId` growing by one.
-/

/-- Gate options (`Record<string, any>`); the pipeline never inspects the
contents, values are modelled as strings. -/
abbrev GateOpts := List (String × String)

/-- The `Gate` interface of `gateKeeper.ts`: `{ name: string; options?: ... }`.
`options = none` models an absent `options` key. -/
structure Gate where
  name : String
  options : Option GateOpts := none
deriving DecidableEq

/-- The request target (`RouteLocationNormalized`-like); the pipeline only
reads its `fullPath` property, which may itself be absent. -/
structure RouteData where
  fullPath : Option String := none
deriving DecidableEq

/-- A `RouteLocationRaw` object returned by a gate's `route()`:
the fields the pipeline and the default gates touch. `query` is a JS object,
modelled as an association list. -/
structure Redirect where
  path : Option String := none
  name : Option String := none
  setRedirectToIntended : Option Bool := none
  query : Option (List (String × String)) := none
deriving DecidableEq

/-- The options object `{ routeData: ..., gateOptions: ... }` that
`GateKeeper.handle` passes to `setOptions`/`handle` (the spec's
`EvaluationContext`). Both keys are always present; their values may be
undefined. -/
structure EvalOptions where
  routeData : Option RouteData := none
  gateOptions : Option GateOpts := none
deriving DecidableEq

/-- What a gate's `handle()` resolves to:
`undefined` (pass), `false` (cancel), a form-name string, or a redirect
object. -/
inductive GateData where
  | undef : GateData
  | fals : GateData
  | str (s : String) : GateData
  | redir (r : Redirect) : GateData
deriving DecidableEq

/-- The result object built in `GateKeeper.handle`:
`{ gate: gate.name, data: ... }`. -/
structure HandleResult where
  gate : String
  data : GateData
deriving DecidableEq

instance {ε α : Type} [DecidableEq ε] [DecidableEq α] : DecidableEq (Except ε α) := fun a b =>
  match a, b with
  | Except.ok x, Except.ok y =>
      if h : x = y then isTrue (congrArg Except.ok h)
      else isFalse (fun hh => h (Except.ok.inj hh))
  | Except.error x, Except.error y =>
      if h : x = y then isTrue (congrArg Except.error h)
      else isFalse (fun hh => h (Except.error.inj hh))
  | Except.ok _, Except.error _ => isFalse (fun hh => Except.noConfusion hh)
  | Except.error _, Except.ok _ => isFalse (fun hh => Except.noConfusion hh)

/-- First-match lookup in an association list (JS property read `m[k]`). -/
def getEntry {α : Type} : List (String × α) → String → Option α
  | [], _ => none
  | (k', v) :: rest, k => if k' = k then some v else getEntry rest k

/-- Property write `m[k] = v`: overwrite the first entry for `k`, or append a
fresh entry when `k` is absent. -/
def setEntry {α : Type} : List (String × α) → String → α → List (String × α)
  | [], k, v => [(k, v)]
  | (k', v') :: rest, k, v =>
      if k' = k then (k, v) :: rest else (k', v') :: setEntry rest k v

/-- Number of entries for a key (a JS object always has at most one). -/
def countKey {α : Type} : List (String × α) → String → Nat
  | [], _ => 0
  | (k', _) :: rest, k => (if k' = k then 1 else 0) + countKey rest k

/-! Part one: the base gate (`src/gates/baseGate.ts`) -/

/-- The state of a `baseGate` instance: `options` (set by `setOptions`,
initially `{}`, possibly `null`) and `form` (a form-name string or `false`,
modelled as `Option String` with `none` = `false`). -/
structure baseGate where
  options : Option EvalOptions := some {}
  form : Option String := none

/-- Model of `baseGate.setOptions(options)`: plain assignment returning `this`. -/
def baseGate.setOptions (g : baseGate) (options : Option EvalOptions) : baseGate :=
  { g with options := options }

/-- The gate's `form` field viewed as an outcome: a string, or `false`
(cancel). -/
def formData : Option String → GateData
  | none => GateData.fals
  | some s => GateData.str s

/-- Model of `baseGate.route()`: `false` when `form === false`, otherwise
`{ path: "/confirm/" + this.form }`. -/
def baseGate.route (g : baseGate) : GateData :=
  match g.form with
  | none => GateData.fals
  | some f => GateData.redir { path := some ("/confirm/" ++ f) }

/-- Model of `baseGate.fail()`: if `this.options` is a non-null object whose
`routeData` key holds a truthy value, return `route()`; otherwise return
`this.form`. (In the model `options` is either `null` or an options object
that always has a `routeData` key, as built by `GateKeeper.handle`.) -/
def baseGate.fail (g : baseGate) : GateData :=
  match g.options with
  | some o => if o.routeData.isSome then g.route else formData g.form
  | none => formData g.form

/-! Part two: the GateKeeper class (`src/gateKeeper.ts`) -/

/-- A gate class registered in `gateInstances`: constructing it yields an
instance whose `handle` behaviour is `behave` applied to the current
options. -/
structure GateClass where
  behave : EvalOptions → GateData

/-- A constructed gate instance living in the `gateClasses` cache. `instId`
models JS reference identity; `options` is the instance's current options
field. -/
structure GateInstance where
  instId : Nat
  options : Option EvalOptions
  behave : EvalOptions → GateData

/-- The mutable fields of a `GateKeeper` object, plus the `nextId` counter
that models object identity and constructor runs. -/
structure GKState where
  gates : List Gate
  gateInstances : Option (List (String × GateClass))
  gateClasses : List (String × GateInstance)
  routeData : Option RouteData
  nextId : Nat

/-- The argument type of `setGates` and the constructor:
`string | (string | Gate)[] | Gate`. -/
inductive GatesArg where
  | one (g : String ⊕ Gate)
  | many (gs : List (String ⊕ Gate))

/-- Model of `convertSingularGateToArray`: `Array.isArray(gate) ? gate : [gate]`. -/
def GateKeeper.convertSingularGateToArray : GatesArg → List (String ⊕ Gate)
  | GatesArg.one g => [g]
  | GatesArg.many gs => gs

/-- Model of `convertStringGateToObject`: a bare string becomes `{ name: gate }`
(with no `options` key); a gate object is returned unchanged. -/
def GateKeeper.convertStringGateToObject : String ⊕ Gate → Gate
  | Sum.inl s => { name := s }
  | Sum.inr g => g

/-- The body of `setGates`: the fresh `newGates` list built by pushing
`convertStringGateToObject` of each element. -/
def GateKeeper.normalizeGates (gates : GatesArg) : List Gate :=
  List.map GateKeeper.convertStringGateToObject
    (GateKeeper.convertSingularGateToArray gates)

/-- Model of `setGates`: replaces `this.gates` with the normalized list. -/
def GateKeeper.setGates (s : GKState) (gates : GatesArg) : GKState :=
  { s with gates := GateKeeper.normalizeGates gates }

/-- Model of `setRouteData`. -/
def GateKeeper.setRouteData (s : GKState)
    (routeData : Option RouteData) : GKState :=
  { s with routeData := routeData }

/-- The `GateKeeper` constructor: `setGates(gates)` on a fresh object, then
`this.gateInstances = gateInstances` when the argument is truthy. The caches
start empty, `routeData` starts undefined. -/
def GateKeeper.init (gates : GatesArg)
    (gateInstances : Option (List (String × GateClass))) : GKState :=
  GateKeeper.setGates
    { gates := [], gateInstances := gateInstances, gateClasses := [],
      routeData := none, nextId := 0 } gates

/-- Model of `addOrGetGateClass(name, gateClass)`: construct and cache an instance
unless one is already cached, then return the cached instance. Construction
draws a fresh `instId` and bumps `nextId` (the constructor side effect);
a fresh `baseGate`-style instance starts with `options = {}`. -/
def GateKeeper.addOrGetGateClass (s : GKState) (name : String)
    (gateClass : GateClass) : GKState × GateInstance :=
  match getEntry s.gateClasses name with
  | some inst => (s, inst)
  | none =>
      let inst : GateInstance :=
        { instId := s.nextId, options := some {}, behave := gateClass.behave }
      ({ s with gateClasses := setEntry s.gateClasses name inst,
                nextId := s.nextId + 1 }, inst)

/-- The message of the `Error` thrown by `handleGate` for an unknown gate. -/
def unknownGateMsg (name : String) : String :=
  "Gate " ++ name ++
    " does not exist. Please make sure it is imported and added to the gateInstances object."

/-- Model of `handleGate(name, options)`: if `gateInstances` is set and has a (truthy)
entry for `name`, run `addOrGetGateClass`; then, if no instance is cached,
throw; otherwise `setOptions(options).handle(options)` — the mutation of the
shared instance's `options` field is written back into the cache. -/
def GateKeeper.handleGate (s : GKState) (name : String)
    (options : EvalOptions) : Except String (GKState × GateData) :=
  let s1 :=
    match s.gateInstances with
    | some m =>
        match getEntry m name with
        | some cls => (GateKeeper.addOrGetGateClass s name cls).1
        | none => s
    | none => s
  match getEntry s1.gateClasses name with
  | none => Except.error (unknownGateMsg name)
  | some inst =>
      let inst' := { inst with options := some options }
      Except.ok
        ({ s1 with gateClasses := setEntry s1.gateClasses name inst' },
         inst'.behave options)

/-- Model of `loadGateFromGateKeeper(name, options)`: dynamically import
`./gates/<name>.ts` (modelled by the module system `dynImport`), register its
default export in `gateInstances` when that map exists and lacks the name,
cache an instance, and evaluate it. A failing import rejects; reading
`setOptions` of an undefined cache entry is a `TypeError`. This function is
declared in the source but never invoked by `handle`/`handleGate`. -/
def GateKeeper.loadGateFromGateKeeper (dynImport : String → Option GateClass)
    (s : GKState) (name : String) (options : EvalOptions) :
    Except String (GKState × GateData) :=
  match dynImport name with
  | none => Except.error ("Failed to fetch dynamically imported module ./gates/" ++ name ++ ".ts")
  | some gate =>
      let s1 :=
        match s.gateInstances with
        | some m =>
            match getEntry m name with
            | some _ => s
            | none =>
                GateKeeper.addOrGetGateClass
                  { s with gateInstances := some (setEntry m name gate) }
                  name gate |>.1
        | none => s
      match getEntry s1.gateClasses name with
      | none => Except.error ("TypeError: this.gateClasses[name] is undefined")
      | some inst =>
          let inst' := { inst with options := some options }
          Except.ok
            ({ s1 with gateClasses := setEntry s1.gateClasses name inst' },
             inst'.behave options)

/-- Evaluation of `this.routeData?.fullPath`. -/
def fullPathOf (routeData : Option RouteData) : Option String :=
  routeData.bind (fun rd => rd.fullPath)

/-- Message of the `TypeError` thrown by the strict-mode property write
`result.data.query = {...}` when `result.data` is a string primitive (the
source is an ES module, hence strict-mode code; the host's exact message
wording is modelled by this fixed string). -/
def strQueryTypeError : String :=
  "TypeError: Cannot create property query on string"

/-- Lines 207–223 of `handle`: the transformation applied to a gate's
non-undefined `result.data` before it is returned. `false` is returned as-is
(early return at line 210, before the attachment). On a redirect object,
when `setRedirectToIntended !== false` and `this.routeData?.fullPath` is
truthy (a non-empty string), the whole `query` field is overwritten with the
fresh object `{ redirect: this.routeData.fullPath }`. On a string,
`result.data.setRedirectToIntended` reads as `undefined` (which is
`!== false`), so when `this.routeData?.fullPath` is truthy the write
`result.data.query = {...}` executes on a string primitive — ES modules are
strict-mode code, so this throws a `TypeError` and the async `handle()`
rejects; with a falsy `fullPath` the write is skipped and the string is
returned unchanged. -/
def GateKeeper.transformData (routeData : Option RouteData) :
    GateData → Except String GateData
  | GateData.redir r =>
      match fullPathOf routeData with
      | some fp =>
          if r.setRedirectToIntended ≠ some false ∧ fp ≠ "" then
            Except.ok (GateData.redir { r with query := some [("redirect", fp)] })
          else Except.ok (GateData.redir r)
      | none => Except.ok (GateData.redir r)
  | GateData.str fs =>
      match fullPathOf routeData with
      | some fp =>
          if fp ≠ "" then Except.error strQueryTypeError
          else Except.ok (GateData.str fs)
      | none => Except.ok (GateData.str fs)
  | d => Except.ok d

/-- One loop iteration's returned value: `ok none` when the gate passed
(`result.data === undefined`, continue); otherwise the `result` object that
`handle` returns, or the `TypeError` rejection raised while normalizing it. -/
def GateKeeper.mkResult (routeData : Option RouteData) (name : String) :
    GateData → Except String (Option HandleResult)
  | GateData.undef => Except.ok none
  | d =>
      match GateKeeper.transformData routeData d with
      | Except.error e => Except.error e
      | Except.ok d' => Except.ok (some { gate := name, data := d' })

/-- The `for (const gate of this.gates)` loop of `handle`, evaluating gates
in order from list position `i`; alongside the final state and result it
returns the positions of the gates whose `handle()` was actually invoked. -/
def GateKeeper.handleAux (routeData : Option RouteData) :
    GKState → Nat → List Gate →
    Except String (GKState × Option HandleResult × List Nat)
  | s, _, [] => Except.ok (s, none, [])
  | s, i, g :: rest =>
      match GateKeeper.handleGate s g.name
          { routeData := routeData, gateOptions := g.options } with
      | Except.error e => Except.error e
      | Except.ok (s', d) =>
          match GateKeeper.mkResult routeData g.name d with
          | Except.error e => Except.error e
          | Except.ok (some res) => Except.ok (s', some res, [i])
          | Except.ok none =>
              match GateKeeper.handleAux routeData s' (i + 1) rest with
              | Except.error e => Except.error e
              | Except.ok (s'', r, tr) => Except.ok (s'', r, i :: tr)

/-- Model of `GateKeeper.handle()`. (The guard `if (!this.gates) return;` never fires:
the `gates` field always holds an array, and arrays are truthy.) -/
def GateKeeper.handle (s : GKState) :
    Except String (GKState × Option HandleResult × List Nat) :=
  GateKeeper.handleAux s.routeData s 0 s.gates

/-- The caller-observable part of a `handle` run: the result object and the
positions evaluated, without the mutated object state. -/
def outcomeOf (e : Except String (GKState × Option HandleResult × List Nat)) :
    Except String (Option HandleResult × List Nat) :=
  match e with
  | Except.error msg => Except.error msg
  | Except.ok (_, r, tr) => Except.ok (r, tr)

/-- The behaviour `handleGate` would use for `name` in state `s`: the cached
instance's, else a fresh instance of the registered class's. `none` means
`handleGate` throws. -/
def resolveB (s : GKState) (name : String) :
    Option (EvalOptions → GateData) :=
  match getEntry s.gateClasses name with
  | some inst => some inst.behave
  | none =>
      Option.map (fun c => c.behave)
        (Option.bind s.gateInstances (fun m => getEntry m name))

/-- Gate reference `g`, evaluated by the pipeline in state `s` against
request target `routeData`, resolves and its `handle()` produces `d`. -/
def evalsTo (s : GKState) (routeData : Option RouteData) (g : Gate)
    (d : GateData) : Prop :=
  ∃ f, resolveB s g.name = some f ∧
    f { routeData := routeData, gateOptions := g.options } = d

/-! Lemmas about association lists. -/

theorem getEntry_setEntry_self {α : Type} (m : List (String × α)) (k : String)
    (v : α) : getEntry (setEntry m k v) k = some v := by
  induction m with
  | nil => simp [setEntry, getEntry]
  | cons e rest ih =>
      obtain ⟨k', v'⟩ := e
      by_cases h : k' = k
      · simp [setEntry, getEntry, h]
      · simp [setEntry, getEntry, h, ih]

theorem getEntry_setEntry_ne {α : Type} (m : List (String × α)) (k n : String)
    (v : α) (h : n ≠ k) : getEntry (setEntry m k v) n = getEntry m n := by
  induction m with
  | nil => simp [setEntry, getEntry, Ne.symm h]
  | cons e rest ih =>
      obtain ⟨k', v'⟩ := e
      by_cases hk : k' = k
      · subst hk
        simp [setEntry, getEntry, Ne.symm h]
      · simp [setEntry, getEntry, hk, ih]

theorem countKey_setEntry_self {α : Type} (m : List (String × α)) (k : String)
    (v : α) : countKey (setEntry m k v) k = max (countKey m k) 1 := by
  induction m with
  | nil => simp [setEntry, countKey]
  | cons e rest ih =>
      obtain ⟨k', v'⟩ := e
      by_cases h : k' = k
      · subst h
        simp [setEntry, countKey]
      · simp only [setEntry, if_neg h, countKey, if_neg h, ih]
        omega

theorem countKey_setEntry_ne {α : Type} (m : List (String × α)) (k n : String)
    (v : α) (h : n ≠ k) : countKey (setEntry m k v) n = countKey m n := by
  induction m with
  | nil => simp [setEntry, countKey, Ne.symm h]
  | cons e rest ih =>
      obtain ⟨k', v'⟩ := e
      by_cases hk : k' = k
      · subst hk
        simp [setEntry, countKey, Ne.symm h]
      · simp [setEntry, countKey, hk, ih]

/-- A JS-object write never creates a second slot for a key: per-key entry
counts stay at most one. -/
theorem countKey_setEntry_le_one {α : Type} (m : List (String × α))
    (k n : String) (v : α) (h : countKey m n ≤ 1) :
    countKey (setEntry m k v) n ≤ 1 := by
  by_cases hk : n = k
  · subst hk
    rw [countKey_setEntry_self]
    omega
  · rw [countKey_setEntry_ne m k n v hk]
    exact h

/-! Resolution lemmas for `handleGate`. -/

theorem resolveB_of_cached {s : GKState} {name : String} {inst : GateInstance}
    (h : getEntry s.gateClasses name = some inst) :
    resolveB s name = some inst.behave := by
  simp [resolveB, h]

theorem addOrGetGateClass_cached {s : GKState} {name : String}
    {inst : GateInstance} (h : getEntry s.gateClasses name = some inst)
    (cls : GateClass) : GateKeeper.addOrGetGateClass s name cls = (s, inst) := by
  simp [GateKeeper.addOrGetGateClass, h]

/-- When `name` resolves to behaviour `f` in state `s`, `handleGate` succeeds
with value `f opts`; the mutated state keeps every name's resolved behaviour,
the `gates`, `routeData` and `gateInstances` fields, and the at-most-one-entry
bound on the instance cache. -/
theorem handleGate_ok {s : GKState} {name : String} {f : EvalOptions → GateData}
    (opts : EvalOptions) (h : resolveB s name = some f) :
    ∃ s', GateKeeper.handleGate s name opts = Except.ok (s', f opts) ∧
      (∀ n, resolveB s' n = resolveB s n) ∧
      s'.gates = s.gates ∧ s'.routeData = s.routeData ∧
      s'.gateInstances = s.gateInstances ∧
      (∀ n, countKey s.gateClasses n ≤ 1 → countKey s'.gateClasses n ≤ 1) := by
  cases hc : getEntry s.gateClasses name with
  | some inst =>
      have hf : f = inst.behave := by
        have h2 := resolveB_of_cached hc
        rw [h] at h2
        exact Option.some.inj h2
      subst hf
      refine ⟨{ s with gateClasses := setEntry s.gateClasses name { inst with options := some opts } }, ?_, ?_, rfl, rfl, rfl, ?_⟩
      · unfold GateKeeper.handleGate
        cases hgi : s.gateInstances with
        | none => simp [hgi, hc]
        | some m =>
            cases hm : getEntry m name with
            | none => simp [hgi, hm, hc]
            | some cls => simp [hgi, hm, addOrGetGateClass_cached hc cls, hc]
      · intro n
        by_cases hn : n = name
        · subst hn
          simp [resolveB, getEntry_setEntry_self, hc]
        · simp [resolveB, getEntry_setEntry_ne _ _ _ _ hn]
      · intro n hcount
        exact countKey_setEntry_le_one _ _ _ _ hcount
  | none =>
      have h' := h
      rw [resolveB, hc] at h'
      obtain ⟨cls, hbind, hb⟩ := Option.map_eq_some'.mp h'
      obtain ⟨m, hgi, hm⟩ := Option.bind_eq_some.mp hbind
      refine ⟨{ s with gateClasses := setEntry (setEntry s.gateClasses name ⟨s.nextId, some {}, cls.behave⟩) name ⟨s.nextId, some opts, cls.behave⟩, nextId := s.nextId + 1 }, ?_, ?_, rfl, rfl, rfl, ?_⟩
      · unfold GateKeeper.handleGate
        simp only [hgi, hm, GateKeeper.addOrGetGateClass, hc]
        simp [getEntry_setEntry_self, hb]
      · intro n
        by_cases hn : n = name
        · subst hn
          rw [h]
          simp [resolveB, getEntry_setEntry_self, hc, hb]
        · simp [resolveB, getEntry_setEntry_ne _ _ _ _ hn]
      · intro n hcount
        exact countKey_setEntry_le_one _ _ _ _
          (countKey_setEntry_le_one _ _ _ _ hcount)

/-- When `name` resolves to no behaviour, `handleGate` throws the
unknown-gate `Error`. -/
theorem handleGate_err {s : GKState} {name : String} (opts : EvalOptions)
    (h : resolveB s name = none) :
    GateKeeper.handleGate s name opts = Except.error (unknownGateMsg name) := by
  have hc : getEntry s.gateClasses name = none := by
    cases hg : getEntry s.gateClasses name with
    | none => rfl
    | some inst => rw [resolveB_of_cached hg] at h; exact absurd h (by simp)
  rw [resolveB, hc] at h
  cases hgi : s.gateInstances with
  | none => unfold GateKeeper.handleGate; simp [hgi, hc]
  | some m =>
      have hm : getEntry m name = none := by
        cases hg : getEntry m name with
        | none => rfl
        | some cls => rw [hgi] at h; simp [hg] at h
      unfold GateKeeper.handleGate
      simp [hgi, hm, hc]

/-! Lemmas about pipeline runs. -/

/-- Prefix the evaluated-positions trace of a run's outcome. -/
def prependTrace (pre : List Nat)
    (e : Except String (GKState × Option HandleResult × List Nat)) :
    Except String (GKState × Option HandleResult × List Nat) :=
  match e with
  | Except.error msg => Except.error msg
  | Except.ok (s, r, tr) => Except.ok (s, r, pre ++ tr)

theorem prependTrace_nil (e : Except String (GKState × Option HandleResult × List Nat)) :
    prependTrace [] e = e := by
  cases e with
  | error msg => rfl
  | ok x => obtain ⟨s, r, tr⟩ := x; simp [prependTrace]

theorem prependTrace_append (p q : List Nat)
    (e : Except String (GKState × Option HandleResult × List Nat)) :
    prependTrace p (prependTrace q e) = prependTrace (p ++ q) e := by
  cases e with
  | error msg => rfl
  | ok x => obtain ⟨s, r, tr⟩ := x; simp [prependTrace]

/-- Unfolding one loop iteration once the gate's evaluation is known. -/
theorem handleAux_cons (rd : Option RouteData) (s : GKState) (i : Nat)
    (g : Gate) (rest : List Gate) (s' : GKState) (d : GateData)
    (hg : GateKeeper.handleGate s g.name
        { routeData := rd, gateOptions := g.options } = Except.ok (s', d)) :
    GateKeeper.handleAux rd s i (g :: rest) =
      match GateKeeper.mkResult rd g.name d with
      | Except.error e => Except.error e
      | Except.ok (some res) => Except.ok (s', some res, [i])
      | Except.ok none => prependTrace [i] (GateKeeper.handleAux rd s' (i + 1) rest) := by
  simp only [GateKeeper.handleAux, hg]
  cases hm : GateKeeper.mkResult rd g.name d with
  | error e => simp only [hm]
  | ok o =>
      cases o with
      | some res => simp only [hm]
      | none =>
          simp only [hm]
          cases hr : GateKeeper.handleAux rd s' (i + 1) rest with
          | error msg => simp [hr, prependTrace]
          | ok x => obtain ⟨s'', r, tr⟩ := x; simp [hr, prependTrace]

/-- Master lemma: when the first `k` gates of the list all pass, the run is
the run of the remaining gates from some state `sk` that resolves every name
as the original one did, after evaluating exactly positions `i..i+k-1`. -/
theorem handleAux_pass_prefix (rd : Option RouteData) (k : Nat) :
    ∀ (gates : List Gate) (s : GKState) (i : Nat),
    (∀ j gj, j < k → gates.get? j = some gj → evalsTo s rd gj GateData.undef) →
    k ≤ gates.length →
    ∃ sk, (∀ n, resolveB sk n = resolveB s n) ∧
      sk.gates = s.gates ∧ sk.routeData = s.routeData ∧
      sk.gateInstances = s.gateInstances ∧
      (∀ n, countKey s.gateClasses n ≤ 1 → countKey sk.gateClasses n ≤ 1) ∧
      GateKeeper.handleAux rd s i gates =
        prependTrace (List.range' i k)
          (GateKeeper.handleAux rd sk (i + k) (List.drop k gates)) := by
  induction k with
  | zero =>
      intro gates s i _ _
      exact ⟨s, fun _ => rfl, rfl, rfl, rfl, fun _ h => h,
        by simp [prependTrace_nil]⟩
  | succ k ih =>
      intro gates s i hpre hlen
      cases gates with
      | nil => simp at hlen
      | cons g rest =>
          obtain ⟨f, hf, hv⟩ := hpre 0 g (Nat.succ_pos k) rfl
          obtain ⟨s', hrun, hres, hgates, hrd, hgi, hcnt⟩ :=
            handleGate_ok { routeData := rd, gateOptions := g.options } hf
          rw [hv] at hrun
          have hpre' : ∀ j gj, j < k → rest.get? j = some gj →
              evalsTo s' rd gj GateData.undef := by
            intro j gj hj hget
            obtain ⟨f', hf', hv'⟩ := hpre (j + 1) gj (Nat.succ_lt_succ hj) hget
            exact ⟨f', by rw [hres gj.name]; exact hf', hv'⟩
          obtain ⟨sk, hres2, hg2, hrd2, hgi2, hcnt2, heq⟩ :=
            ih rest s' (i + 1) hpre' (Nat.le_of_succ_le_succ (by simpa using hlen))
          refine ⟨sk, ?_, ?_, ?_, ?_, ?_, ?_⟩
          · intro n; rw [hres2 n, hres n]
          · rw [hg2, hgates]
          · rw [hrd2, hrd]
          · rw [hgi2, hgi]
          · intro n h; exact hcnt2 n (hcnt n h)
          · rw [handleAux_cons rd s i g rest s' GateData.undef hrun]
            show prependTrace [i] (GateKeeper.handleAux rd s' (i + 1) rest) = _
            rw [heq, prependTrace_append]
            have h1 : [i] ++ List.range' (i + 1) k = List.range' i (k + 1) := by
              simp [List.range']
            have h2 : i + 1 + k = i + (k + 1) := by omega
            rw [h1, h2, List.drop_succ_cons]

/-- One loop iteration when the gate resolution throws. -/
theorem handleAux_cons_err (rd : Option RouteData) (s : GKState) (i : Nat)
    (g : Gate) (rest : List Gate) (e : String)
    (hg : GateKeeper.handleGate s g.name
        { routeData := rd, gateOptions := g.options } = Except.error e) :
    GateKeeper.handleAux rd s i (g :: rest) = Except.error e := by
  simp only [GateKeeper.handleAux, hg]

/-- Computation of `mkResult` on a non-pass value from a successful
normalization. -/
theorem mkResult_of_transform_ok (rd : Option RouteData) (name : String)
    (d d' : GateData) (hnp : d ≠ GateData.undef)
    (htd : GateKeeper.transformData rd d = Except.ok d') :
    GateKeeper.mkResult rd name d = Except.ok (some { gate := name, data := d' }) := by
  cases d with
  | undef => exact absurd rfl hnp
  | fals => simp only [GateKeeper.mkResult, htd]
  | str s0 => simp only [GateKeeper.mkResult, htd]
  | redir r => simp only [GateKeeper.mkResult, htd]

/-- Computation of `mkResult` on a non-pass value whose normalization
throws. -/
theorem mkResult_of_transform_err (rd : Option RouteData) (name : String)
    (d : GateData) (e : String) (hnp : d ≠ GateData.undef)
    (htd : GateKeeper.transformData rd d = Except.error e) :
    GateKeeper.mkResult rd name d = Except.error e := by
  cases d with
  | undef => exact absurd rfl hnp
  | fals => simp only [GateKeeper.mkResult, htd]
  | str s0 => simp only [GateKeeper.mkResult, htd]
  | redir r => simp only [GateKeeper.mkResult, htd]

/-- A loop iteration continues (produces no result and no error) only for a
pass. -/
theorem mkResult_ok_none (rd : Option RouteData) (name : String)
    (d : GateData) (h : GateKeeper.mkResult rd name d = Except.ok none) :
    d = GateData.undef := by
  cases d with
  | undef => rfl
  | fals =>
      simp only [GateKeeper.mkResult] at h
      cases htd : GateKeeper.transformData rd GateData.fals with
      | error e => rw [htd] at h; exact absurd h (by simp)
      | ok d' => rw [htd] at h; simp at h
  | str s0 =>
      simp only [GateKeeper.mkResult] at h
      cases htd : GateKeeper.transformData rd (GateData.str s0) with
      | error e => rw [htd] at h; exact absurd h (by simp)
      | ok d' => rw [htd] at h; simp at h
  | redir r =>
      simp only [GateKeeper.mkResult] at h
      cases htd : GateKeeper.transformData rd (GateData.redir r) with
      | error e => rw [htd] at h; exact absurd h (by simp)
      | ok d' => rw [htd] at h; simp at h

/-- One loop iteration when the gate evaluates to a non-pass value whose
normalization succeeds: the loop returns the transformed result at once. -/
theorem handleAux_deny (rd : Option RouteData) (s : GKState) (i : Nat)
    (g : Gate) (rest : List Gate) (d d' : GateData)
    (hd : evalsTo s rd g d) (hnp : d ≠ GateData.undef)
    (htd : GateKeeper.transformData rd d = Except.ok d') :
    ∃ s', GateKeeper.handleAux rd s i (g :: rest) =
      Except.ok (s', some { gate := g.name, data := d' }, [i]) := by
  obtain ⟨f, hf, hv⟩ := hd
  obtain ⟨s', hrun, _⟩ := handleGate_ok { routeData := rd, gateOptions := g.options } hf
  rw [hv] at hrun
  refine ⟨s', ?_⟩
  rw [handleAux_cons rd s i g rest s' d hrun]
  simp only [mkResult_of_transform_ok rd g.name d d' hnp htd]

/-- One loop iteration when the gate evaluates to a non-pass value whose
normalization throws: the loop rejects with that error. -/
theorem handleAux_deny_err (rd : Option RouteData) (s : GKState) (i : Nat)
    (g : Gate) (rest : List Gate) (d : GateData) (e : String)
    (hd : evalsTo s rd g d) (hnp : d ≠ GateData.undef)
    (htd : GateKeeper.transformData rd d = Except.error e) :
    GateKeeper.handleAux rd s i (g :: rest) = Except.error e := by
  obtain ⟨f, hf, hv⟩ := hd
  obtain ⟨s', hrun, _⟩ := handleGate_ok { routeData := rd, gateOptions := g.options } hf
  rw [hv] at hrun
  rw [handleAux_cons rd s i g rest s' d hrun]
  simp only [mkResult_of_transform_err rd g.name d e hnp htd]

/-- The outcome projection of a prefixed run. -/
def prependTraceOut (pre : List Nat) :
    Except String (Option HandleResult × List Nat) →
    Except String (Option HandleResult × List Nat)
  | Except.error msg => Except.error msg
  | Except.ok (r, tr) => Except.ok (r, pre ++ tr)

theorem outcomeOf_prependTrace (pre : List Nat)
    (e : Except String (GKState × Option HandleResult × List Nat)) :
    outcomeOf (prependTrace pre e) = prependTraceOut pre (outcomeOf e) := by
  cases e with
  | error msg => rfl
  | ok x => obtain ⟨s, r, tr⟩ := x; rfl

theorem prependTrace_ok_inv (pre : List Nat)
    (e : Except String (GKState × Option HandleResult × List Nat))
    (s1 : GKState) (r : Option HandleResult) (tr : List Nat)
    (h : prependTrace pre e = Except.ok (s1, r, tr)) :
    ∃ tr', e = Except.ok (s1, r, tr') ∧ tr = pre ++ tr' := by
  cases e with
  | error msg => exact absurd h (by simp [prependTrace])
  | ok x =>
      obtain ⟨s0, r0, tr0⟩ := x
      simp only [prependTrace] at h
      have h' := Except.ok.inj h
      have h1 : s0 = s1 := congrArg (fun z => z.1) h'
      have h2 : r0 = r := congrArg (fun z => z.2.1) h'
      have h3 : pre ++ tr0 = tr := congrArg (fun z => z.2.2) h'
      exact ⟨tr0, by rw [h1, h2], h3.symm⟩

/-- The caller-observable outcome of a run depends on the object state only
through the behaviours `resolveB` assigns to names. -/
theorem handleAux_outcome_congr (rd : Option RouteData) :
    ∀ (gates : List Gate) (s t : GKState) (i : Nat),
    (∀ n, resolveB s n = resolveB t n) →
    outcomeOf (GateKeeper.handleAux rd s i gates) =
      outcomeOf (GateKeeper.handleAux rd t i gates) := by
  intro gates
  induction gates with
  | nil => intro s t i _; rfl
  | cons g rest ih =>
      intro s t i h
      cases hf : resolveB s g.name with
      | none =>
          have hft : resolveB t g.name = none := by rw [← h]; exact hf
          rw [handleAux_cons_err rd s i g rest _ (handleGate_err _ hf),
            handleAux_cons_err rd t i g rest _ (handleGate_err _ hft)]
      | some f =>
          have hft : resolveB t g.name = some f := by rw [← h]; exact hf
          obtain ⟨s', hrunS, hresS, _, _, _, _⟩ :=
            handleGate_ok { routeData := rd, gateOptions := g.options } hf
          obtain ⟨t', hrunT, hresT, _, _, _, _⟩ :=
            handleGate_ok { routeData := rd, gateOptions := g.options } hft
          rw [handleAux_cons rd s i g rest s' _ hrunS,
            handleAux_cons rd t i g rest t' _ hrunT]
          cases hm : GateKeeper.mkResult rd g.name
              (f { routeData := rd, gateOptions := g.options }) with
          | error e => simp only [hm, outcomeOf]
          | ok o =>
              cases o with
              | some res => simp only [hm, outcomeOf]
              | none =>
                  simp only [hm, outcomeOf_prependTrace]
                  have hst : ∀ n, resolveB s' n = resolveB t' n := by
                    intro n; rw [hresS n, hresT n]; exact h n
                  rw [ih s' t' (i + 1) hst]

/-- A successful run leaves the `gates`, `routeData` and `gateInstances`
fields untouched, resolves every name as before, and preserves the
at-most-one-entry bound on the instance cache. -/
theorem handleAux_ok_state (rd : Option RouteData) :
    ∀ (gates : List Gate) (s : GKState) (i : Nat) (s1 : GKState)
      (r : Option HandleResult) (tr : List Nat),
    GateKeeper.handleAux rd s i gates = Except.ok (s1, r, tr) →
    (∀ n, resolveB s1 n = resolveB s n) ∧ s1.gates = s.gates ∧
      s1.routeData = s.routeData ∧ s1.gateInstances = s.gateInstances ∧
      (∀ n, countKey s.gateClasses n ≤ 1 → countKey s1.gateClasses n ≤ 1) := by
  intro gates
  induction gates with
  | nil =>
      intro s i s1 r tr h
      simp only [GateKeeper.handleAux] at h
      have h1 : s1 = s := (congrArg (fun z => z.1) (Except.ok.inj h)).symm
      subst h1
      exact ⟨fun _ => rfl, rfl, rfl, rfl, fun _ hh => hh⟩
  | cons g rest ih =>
      intro s i s1 r tr h
      cases hf : resolveB s g.name with
      | none =>
          rw [handleAux_cons_err rd s i g rest _ (handleGate_err _ hf)] at h
          exact absurd h (by simp)
      | some f =>
          obtain ⟨s', hrun, hres, hgates, hrd, hgi, hcnt⟩ :=
            handleGate_ok { routeData := rd, gateOptions := g.options } hf
          rw [handleAux_cons rd s i g rest s' _ hrun] at h
          cases hm : GateKeeper.mkResult rd g.name
              (f { routeData := rd, gateOptions := g.options }) with
          | error e =>
              rw [hm] at h
              simp only at h
              exact absurd h (by simp)
          | ok o =>
            cases o with
            | some res =>
              rw [hm] at h
              simp only at h
              have h1 : s1 = s' := (congrArg (fun z => z.1) (Except.ok.inj h)).symm
              subst h1
              exact ⟨hres, hgates, hrd, hgi, hcnt⟩
            | none =>
              rw [hm] at h
              simp only at h
              obtain ⟨tr', hrec, _⟩ := prependTrace_ok_inv [i] _ s1 r tr h
              obtain ⟨ihres, ihgates, ihrd, ihgi, ihcnt⟩ := ih s' (i + 1) s1 r tr' hrec
              refine ⟨?_, ?_, ?_, ?_, ?_⟩
              · intro n; rw [ihres n, hres n]
              · rw [ihgates, hgates]
              · rw [ihrd, hrd]
              · rw [ihgi, hgi]
              · intro n hh; exact ihcnt n (hcnt n hh)

/-! Small list helpers. -/

theorem get_some_lt {α : Type} :
    ∀ (l : List α) (n : Nat) (a : α), l.get? n = some a → n < l.length := by
  intro l
  induction l with
  | nil => intro n a h; simp [List.get?] at h
  | cons x xs ih =>
      intro n a h
      cases n with
      | zero => simp
      | succ m =>
          simp only [List.get?] at h
          exact Nat.succ_lt_succ (ih m a h)

theorem drop_of_get {α : Type} :
    ∀ (l : List α) (n : Nat) (a : α), l.get? n = some a →
      l.drop n = a :: l.drop (n + 1) := by
  intro l
  induction l with
  | nil => intro n a h; simp [List.get?] at h
  | cons x xs ih =>
      intro n a h
      cases n with
      | zero =>
          simp only [List.get?] at h
          rw [Option.some.inj h]
          simp
      | succ m =>
          simp only [List.get?] at h
          simp only [List.drop_succ_cons]
          exact ih m a h

theorem range'_append_singleton :
    ∀ (k i : Nat), List.range' i k ++ [i + k] = List.range' i (k + 1) := by
  intro k
  induction k with
  | zero => intro i; simp [List.range']
  | succ k ih =>
      intro i
      have h1 : i + (k + 1) = (i + 1) + k := by omega
      simp only [List.range', List.cons_append, h1, ih (i + 1)]

theorem mem_range'_lt : ∀ (k i j : Nat), j ∈ List.range' i k → j < i + k := by
  intro k
  induction k with
  | zero => intro i j h; simp [List.range'] at h
  | succ k ih =>
      intro i j h
      simp only [List.range', List.mem_cons] at h
      cases h with
      | inl h => omega
      | inr h => have := ih (i + 1) j h; omega

/-- Shared backbone: when every gate before position `k` passes and gate `k`
evaluates to a non-pass value `d` whose normalization succeeds with `d'`,
`handle()` returns the result naming gate `k` with data `d'`, having
evaluated exactly positions `0..k`. -/
theorem handle_first_denial (s : GKState) (k : Nat) (gk : Gate)
    (d d' : GateData)
    (hpre : ∀ j gj, j < k → s.gates.get? j = some gj →
      evalsTo s s.routeData gj GateData.undef)
    (hk : s.gates.get? k = some gk)
    (hd : evalsTo s s.routeData gk d) (hnp : d ≠ GateData.undef)
    (htd : GateKeeper.transformData s.routeData d = Except.ok d') :
    ∃ s', GateKeeper.handle s = Except.ok (s',
      some { gate := gk.name, data := d' }, List.range' 0 (k + 1)) := by
  have hlen : k < s.gates.length := get_some_lt _ _ _ hk
  obtain ⟨sk, hres, _, _, _, _, heq⟩ :=
    handleAux_pass_prefix s.routeData k s.gates s 0 hpre (Nat.le_of_lt hlen)
  have hdk : evalsTo sk s.routeData gk d := by
    obtain ⟨f, hf, hv⟩ := hd
    exact ⟨f, by rw [hres gk.name]; exact hf, hv⟩
  rw [drop_of_get _ _ _ hk] at heq
  obtain ⟨s', hrun⟩ :=
    handleAux_deny s.routeData sk (0 + k) gk (s.gates.drop (k + 1)) d d' hdk
      hnp htd
  rw [hrun] at heq
  refine ⟨s', ?_⟩
  show GateKeeper.handleAux s.routeData s 0 s.gates = _
  rw [heq]
  simp only [prependTrace, Nat.zero_add]
  have hr := range'_append_singleton k 0
  rw [Nat.zero_add] at hr
  rw [hr]

/-- Shared backbone, rejecting corner: when every gate before position `k`
passes and gate `k` evaluates to a non-pass value `d` whose normalization
throws (a string denial while `this.routeData?.fullPath` is truthy),
`handle()` rejects with that error. -/
theorem handle_first_denial_err (s : GKState) (k : Nat) (gk : Gate)
    (d : GateData) (e : String)
    (hpre : ∀ j gj, j < k → s.gates.get? j = some gj →
      evalsTo s s.routeData gj GateData.undef)
    (hk : s.gates.get? k = some gk)
    (hd : evalsTo s s.routeData gk d) (hnp : d ≠ GateData.undef)
    (htd : GateKeeper.transformData s.routeData d = Except.error e) :
    GateKeeper.handle s = Except.error e := by
  have hlen : k < s.gates.length := get_some_lt _ _ _ hk
  obtain ⟨sk, hres, _, _, _, _, heq⟩ :=
    handleAux_pass_prefix s.routeData k s.gates s 0 hpre (Nat.le_of_lt hlen)
  have hdk : evalsTo sk s.routeData gk d := by
    obtain ⟨f, hf, hv⟩ := hd
    exact ⟨f, by rw [hres gk.name]; exact hf, hv⟩
  rw [drop_of_get _ _ _ hk] at heq
  rw [handleAux_deny_err s.routeData sk (0 + k) gk (s.gates.drop (k + 1)) d e
    hdk hnp htd] at heq
  show GateKeeper.handleAux s.routeData s 0 s.gates = _
  rw [heq]
  rfl

/-- Shared backbone, truncation form: when every gate before position `k`
passes and gate `k` evaluates to a non-pass value, the run coincides with
the run on the list truncated after position `k` — gates past `k` are never
consulted, whether the run returns a result or rejects. -/
theorem handleAux_short_input (rd : Option RouteData) :
    ∀ (k : Nat) (gates : List Gate) (s : GKState) (i : Nat) (gk : Gate)
      (d : GateData),
    (∀ j gj, j < k → gates.get? j = some gj → evalsTo s rd gj GateData.undef) →
    gates.get? k = some gk → evalsTo s rd gk d → d ≠ GateData.undef →
    GateKeeper.handleAux rd s i gates =
      GateKeeper.handleAux rd s i (List.take (k + 1) gates) := by
  intro k
  induction k with
  | zero =>
      intro gates s i gk d _ hk hd hnp
      cases gates with
      | nil => simp [List.get?] at hk
      | cons g rest =>
          simp only [List.get?] at hk
          have hgk : g = gk := Option.some.inj hk
          subst hgk
          obtain ⟨f, hf, hv⟩ := hd
          obtain ⟨s', hrun, _⟩ :=
            handleGate_ok { routeData := rd, gateOptions := g.options } hf
          rw [hv] at hrun
          simp only [List.take_succ_cons, List.take_zero]
          rw [handleAux_cons rd s i g rest s' d hrun,
            handleAux_cons rd s i g [] s' d hrun]
          cases hm : GateKeeper.mkResult rd g.name d with
          | error e => simp only [hm]
          | ok o =>
              cases o with
              | some res => simp only [hm]
              | none =>
                  exact absurd (mkResult_ok_none rd g.name d hm) hnp
  | succ k ih =>
      intro gates s i gk d hpre hk hd hnp
      cases gates with
      | nil => simp [List.get?] at hk
      | cons g rest =>
          obtain ⟨f, hf, hv⟩ := hpre 0 g (Nat.succ_pos k) rfl
          obtain ⟨s', hrun, hres, _, _, _, _⟩ :=
            handleGate_ok { routeData := rd, gateOptions := g.options } hf
          rw [hv] at hrun
          have hpre' : ∀ j gj, j < k → rest.get? j = some gj →
              evalsTo s' rd gj GateData.undef := by
            intro j gj hj hget
            obtain ⟨f', hf', hv'⟩ := hpre (j + 1) gj (Nat.succ_lt_succ hj) hget
            exact ⟨f', by rw [hres gj.name]; exact hf', hv'⟩
          have hk' : rest.get? k = some gk := hk
          have hd' : evalsTo s' rd gk d := by
            obtain ⟨f', hf', hv'⟩ := hd
            exact ⟨f', by rw [hres gk.name]; exact hf', hv'⟩
          simp only [List.take_succ_cons]
          rw [handleAux_cons rd s i g rest s' GateData.undef hrun,
            handleAux_cons rd s i g (List.take (k + 1) rest) s' GateData.undef
              hrun]
          simp only [GateKeeper.mkResult]
          rw [ih rest s' (i + 1) gk d hpre' hk' hd' hnp]

/-! Concrete gate classes and states used by the witnesses. -/

/-- A gate class that always passes (its `handle` resolves `undefined`). -/
def wPassClass : GateClass := ⟨fun _ => GateData.undef⟩

/-- A gate class that always cancels (its `handle` resolves `false`). -/
def wCancelClass : GateClass := ⟨fun _ => GateData.fals⟩

/-- A gate class denying with an overridden `route()`-style redirect
`{ name: "login" }`. -/
def wLoginClass : GateClass := ⟨fun _ => GateData.redir { name := some ("login") }⟩

/-- A pipeline `["first", "second", "third"]` where `"first"` and `"third"`
pass and `"second"` cancels; no request target. -/
def wC1State : GKState :=
  GateKeeper.setRouteData
    (GateKeeper.init
      (GatesArg.many [Sum.inl ("first"), Sum.inl ("second"), Sum.inl ("third")])
      (some [("first", wPassClass), ("second", wCancelClass),
        ("third", wPassClass)]))
    none

/-- A gate class denying with a bare string (its `handle` resolves the
form-name string directly, as `route(): RouteLocationRaw | false` also
permits plain string locations). -/
def wStrClass : GateClass := ⟨fun _ => GateData.str ("LoginForm")⟩

/-- The pipeline `["legacy"]` whose gate denies with a string while a
navigation target `/dashboard` is set. -/
def wStrState : GKState :=
  GateKeeper.setRouteData
    (GateKeeper.init (GatesArg.one (Sum.inl ("legacy")))
      (some [("legacy", wStrClass)]))
    (some { fullPath := some ("/dashboard") })

/-- Counterexample to C1 as stated: gate 0 of `wStrState` denies with the
non-pass outcome `"LoginForm"` (so the claim's hypotheses hold at `k = 0`),
but `handle()` does not return a result naming the gate — line 218's
property write on the string primitive throws in strict mode, and the run
rejects with the `TypeError`. -/
theorem string_denial_navigation_rejects :
    evalsTo wStrState wStrState.routeData { name := "legacy" } (GateData.str ("LoginForm")) ∧
    GateData.str ("LoginForm") ≠ GateData.undef ∧
    fullPathOf wStrState.routeData = some ("/dashboard") ∧
    GateKeeper.handle wStrState = Except.error strQueryTypeError :=
  ⟨⟨wStrClass.behave, rfl, rfl⟩, by decide, rfl, rfl⟩

/-- C1 (amended: the returned-result half holds exactly when the
outcome-normalization step does not throw): for every gate list and every
index `k`, if gate `k`'s evaluation produces a non-pass outcome `d` and
every gate before `k` passes (returns `undefined`), then no gate at an index
after `k` is ever consulted — the run equals the run on the list truncated
after position `k`. When normalizing `d` succeeds (for `false`, a redirect
object, or a string while `this.routeData?.fullPath` is falsy), `handle()`
returns a result whose `gate` field is gate `k`'s name and the trace of
evaluated positions stays within `0..k`; when it throws (`d` is a string
while `fullPath` is truthy, the strict-mode `TypeError` of line 218),
`handle()` rejects with that error instead of returning a result. -/
theorem gatekeeper_short_circuits_at_first_denial
    (s : GKState) (k : Nat) (gk : Gate) (d : GateData)
    (hpre : ∀ j gj, j < k → s.gates.get? j = some gj →
      evalsTo s s.routeData gj GateData.undef)
    (hk : s.gates.get? k = some gk)
    (hd : evalsTo s s.routeData gk d) (hnp : d ≠ GateData.undef) :
    GateKeeper.handle s =
      GateKeeper.handleAux s.routeData s 0 (List.take (k + 1) s.gates) ∧
    (∀ d', GateKeeper.transformData s.routeData d = Except.ok d' →
      ∃ s' tr, GateKeeper.handle s =
        Except.ok (s', some { gate := gk.name, data := d' }, tr) ∧
        ∀ j, j ∈ tr → j ≤ k) ∧
    (∀ e, GateKeeper.transformData s.routeData d = Except.error e →
      GateKeeper.handle s = Except.error e) := by
  refine ⟨?_, ?_, ?_⟩
  · exact handleAux_short_input s.routeData k s.gates s 0 gk d hpre hk hd hnp
  · intro d' htd
    obtain ⟨s', heq⟩ := handle_first_denial s k gk d d' hpre hk hd hnp htd
    refine ⟨s', List.range' 0 (k + 1), heq, ?_⟩
    intro j hj
    have := mem_range'_lt (k + 1) 0 j hj
    omega
  · intro e htd
    exact handle_first_denial_err s k gk d e hpre hk hd hnp htd

/-- Witness for the amended C1, exercising both halves: at `wC1State`
(gate 1 cancels) the result names `"second"` and only positions `0` and `1`
are evaluated, and the run ignores gate 2 entirely; at `wStrState` (string
denial during navigation) the run rejects with the `TypeError`. -/
theorem gatekeeper_short_circuits_witness :
    (GateKeeper.handle wC1State =
      GateKeeper.handleAux wC1State.routeData wC1State 0 (List.take 2 wC1State.gates)) ∧
    (∃ s' tr, GateKeeper.handle wC1State =
      Except.ok (s', some { gate := "second", data := GateData.fals }, tr) ∧
      ∀ j, j ∈ tr → j ≤ 1) ∧
    GateKeeper.handle wStrState = Except.error strQueryTypeError :=
  ⟨(gatekeeper_short_circuits_at_first_denial wC1State 1
      { name := "second" } GateData.fals
      (by
        intro j gj hj hget
        have hj0 : j = 0 := by omega
        subst hj0
        have hgj : gj = { name := "first" } := Option.some.inj hget.symm
        subst hgj
        exact ⟨wPassClass.behave, rfl, rfl⟩)
      rfl ⟨wCancelClass.behave, rfl, rfl⟩ (by decide)).1,
   (gatekeeper_short_circuits_at_first_denial wC1State 1
      { name := "second" } GateData.fals
      (by
        intro j gj hj hget
        have hj0 : j = 0 := by omega
        subst hj0
        have hgj : gj = { name := "first" } := Option.some.inj hget.symm
        subst hgj
        exact ⟨wPassClass.behave, rfl, rfl⟩)
      rfl ⟨wCancelClass.behave, rfl, rfl⟩ (by decide)).2.1 GateData.fals rfl,
   (gatekeeper_short_circuits_at_first_denial wStrState 0
      { name := "legacy" } (GateData.str ("LoginForm"))
      (fun j gj hj _ => absurd hj (Nat.not_lt_zero j)) rfl
      ⟨wStrClass.behave, rfl, rfl⟩ (by decide)).2.2 strQueryTypeError rfl⟩

/-- C7: for every GateKeeper whose gate list is empty, `handle()` resolves to
`undefined` (no result object), as a normal `Except.ok` outcome with no gate
evaluated, not an error. -/
theorem empty_gate_list_passes (s : GKState) (h : s.gates = []) :
    GateKeeper.handle s = Except.ok (s, none, []) := by
  show GateKeeper.handleAux s.routeData s 0 s.gates = _
  rw [h]
  simp [GateKeeper.handleAux]

/-- Witness for C7 on a freshly constructed GateKeeper with an empty list. -/
theorem empty_gate_list_passes_witness :
    GateKeeper.handle (GateKeeper.init (GatesArg.many []) none) =
      Except.ok (GateKeeper.init (GatesArg.many []) none, none, []) :=
  empty_gate_list_passes (GateKeeper.init (GatesArg.many []) none) rfl

/-- C9: with the gate list, route data and gate behaviours fixed (gate
evaluation in the model is a pure function of the received options), a second
call to `handle()` on the object state left by a successful first call
produces the same result and evaluates the same gate positions from the
start; no outcome is carried over from the first call. -/
theorem handle_idempotent_outcome (s s1 : GKState) (r : Option HandleResult)
    (tr : List Nat) (h : GateKeeper.handle s = Except.ok (s1, r, tr)) :
    outcomeOf (GateKeeper.handle s1) = Except.ok (r, tr) := by
  obtain ⟨hres, hgates, hrd, _, _⟩ :=
    handleAux_ok_state s.routeData s.gates s 0 s1 r tr h
  show outcomeOf (GateKeeper.handleAux s1.routeData s1 0 s1.gates) = _
  rw [hgates, hrd]
  rw [handleAux_outcome_congr s.routeData s.gates s1 s 0 hres]
  have h' : GateKeeper.handleAux s.routeData s 0 s.gates =
      Except.ok (s1, r, tr) := h
  rw [h']
  rfl

/-- The pipeline `["first", "second"]` with pass-then-cancel behaviours. -/
def wC9State : GKState :=
  GateKeeper.setRouteData
    (GateKeeper.init (GatesArg.many [Sum.inl ("first"), Sum.inl ("second")])
      (some [("first", wPassClass), ("second", wCancelClass)]))
    none

/-- The object state after the first `handle()` run on `wC9State`: both gate
instances are now cached with their options set. -/
def wC9State1 : GKState :=
  { gates := [{ name := "first" }, { name := "second" }],
    gateInstances := some [("first", wPassClass), ("second", wCancelClass)],
    gateClasses :=
      [("first", { instId := 0, options := some {}, behave := wPassClass.behave }),
       ("second", { instId := 1, options := some {}, behave := wCancelClass.behave })],
    routeData := none,
    nextId := 2 }

/-- Witness for C9: re-running `handle()` after the concrete first run yields
the same result and the same evaluated positions. -/
theorem handle_idempotent_outcome_witness :
    outcomeOf (GateKeeper.handle wC9State1) =
      Except.ok (some { gate := "second", data := GateData.fals }, [0, 1]) :=
  handle_idempotent_outcome wC9State wC9State1
    (some { gate := "second", data := GateData.fals }) [0, 1] rfl

/-- C2: for every default-translation gate, `fail()` returns `route()` when
the current options carry a (non-null) `routeData`, and the `form` field (a
string, or `false` meaning cancel) otherwise; the default `route()` returns
`false` when `form` is `false` and a redirect with path
`"/confirm/" + form` otherwise. -/
theorem basegate_fail_and_route_defaults (g : baseGate) :
    (∀ o rd, g.options = some o → o.routeData = some rd →
      baseGate.fail g = baseGate.route g) ∧
    (∀ o, g.options = some o → o.routeData = none →
      baseGate.fail g = formData g.form) ∧
    (g.options = none → baseGate.fail g = formData g.form) ∧
    (g.form = none → baseGate.route g = GateData.fals) ∧
    (∀ f, g.form = some f →
      baseGate.route g = GateData.redir { path := some ("/confirm/" ++ f) }) := by
  refine ⟨?_, ?_, ?_, ?_, ?_⟩
  · intro o rd ho hrd
    simp [baseGate.fail, ho, hrd]
  · intro o ho hrd
    simp [baseGate.fail, ho, hrd]
  · intro ho
    simp [baseGate.fail, ho]
  · intro hf
    simp [baseGate.route, hf]
  · intro f hf
    simp [baseGate.route, hf]

/-- Witness for C2 at concrete gates: a navigation-context denial goes through
`route()` and yields the `/confirm/login` redirect; without `routeData` the
`form` string (or `false`) is returned directly. -/
theorem basegate_fail_and_route_defaults_witness :
    baseGate.fail { options := some { routeData := some { fullPath := some ("/dashboard") } }, form := some ("login") } =
      baseGate.route { options := some { routeData := some { fullPath := some ("/dashboard") } }, form := some ("login") } ∧
    baseGate.route { options := some { routeData := some { fullPath := some ("/dashboard") } }, form := some ("login") } =
      GateData.redir { path := some ("/confirm/login") } ∧
    baseGate.fail { options := some {}, form := some ("login") } = GateData.str ("login") ∧
    baseGate.fail { options := some {}, form := none } = GateData.fals :=
  ⟨(basegate_fail_and_route_defaults _).1 _ _ rfl rfl,
   (basegate_fail_and_route_defaults _).2.2.2.2 ("login") rfl,
   (basegate_fail_and_route_defaults _).2.1 _ rfl rfl,
   (basegate_fail_and_route_defaults _).2.1 _ rfl rfl⟩

/-- The pipeline `["auth"]` whose single gate denies with `{ name: "login" }`
while the request target's `fullPath` is the empty string. -/
def wC3EmptyState : GKState :=
  GateKeeper.setRouteData
    (GateKeeper.init (GatesArg.one (Sum.inl ("auth")))
      (some [("auth", wLoginClass)]))
    (some { fullPath := some ("") })

/-- Counterexample to C3 as stated: the denying gate's redirect has no
`setRedirectToIntended: false`, and the route data's `fullPath` is defined
(the empty string), yet the returned redirect carries no
`query.redirect` at all — `this.routeData?.fullPath` is falsy for `""`. -/
theorem resume_query_missing_for_empty_fullPath :
    fullPathOf wC3EmptyState.routeData = some ("") ∧
    ({ name := some ("login") } : Redirect).setRedirectToIntended ≠ some false ∧
    outcomeOf (GateKeeper.handle wC3EmptyState) =
      Except.ok (some { gate := "auth", data := GateData.redir { name := some ("login") } }, [0]) ∧
    ({ name := some ("login") } : Redirect).query ≠ some [("redirect", "")] :=
  ⟨rfl, by decide, by decide, by decide⟩

/-- C3 (amended: the resume query is attached exactly when the `fullPath` is
defined and non-empty, since the code tests the string's truthiness): when
the first denying gate produces a redirect `r`, the returned redirect carries
`query.redirect = fullPath` whenever `r` does not set
`setRedirectToIntended: false` and the route data's `fullPath` is a non-empty
string; and when `r` sets `setRedirectToIntended: false`, the redirect is
returned unchanged — no resume query is attached even though `fullPath`
exists. -/
theorem resume_query_laws (s : GKState) (k : Nat) (gk : Gate) (r : Redirect)
    (hpre : ∀ j gj, j < k → s.gates.get? j = some gj →
      evalsTo s s.routeData gj GateData.undef)
    (hk : s.gates.get? k = some gk)
    (hd : evalsTo s s.routeData gk (GateData.redir r)) :
    (∀ fp, fullPathOf s.routeData = some fp → fp ≠ "" →
      r.setRedirectToIntended ≠ some false →
      ∃ s' tr, GateKeeper.handle s =
        Except.ok (s', some { gate := gk.name, data := GateData.redir { r with query := some [("redirect", fp)] } }, tr)) ∧
    (r.setRedirectToIntended = some false →
      ∃ s' tr, GateKeeper.handle s =
        Except.ok (s', some { gate := gk.name, data := GateData.redir r }, tr)) := by
  constructor
  · intro fp hfp hne hsri
    have ht : GateKeeper.transformData s.routeData (GateData.redir r) =
        Except.ok (GateData.redir { r with query := some [("redirect", fp)] }) := by
      simp only [GateKeeper.transformData, hfp]
      rw [if_pos ⟨hsri, hne⟩]
    obtain ⟨s', heq⟩ :=
      handle_first_denial s k gk (GateData.redir r) _ hpre hk hd (by simp) ht
    exact ⟨s', List.range' 0 (k + 1), heq⟩
  · intro hsri
    have ht : GateKeeper.transformData s.routeData (GateData.redir r) =
        Except.ok (GateData.redir r) := by
      simp only [GateKeeper.transformData]
      cases hfp : fullPathOf s.routeData with
      | none => rfl
      | some fp => simp [hsri]
    obtain ⟨s', heq⟩ :=
      handle_first_denial s k gk (GateData.redir r) _ hpre hk hd (by simp) ht
    exact ⟨s', List.range' 0 (k + 1), heq⟩

/-- The pipeline `["auth"]` denying with `{ name: "login" }` against a
request target `/dashboard`. -/
def wC3State : GKState :=
  GateKeeper.setRouteData
    (GateKeeper.init (GatesArg.one (Sum.inl ("auth")))
      (some [("auth", wLoginClass)]))
    (some { fullPath := some ("/dashboard") })

/-- A gate class denying with a redirect that opts out of the resume query. -/
def wOptOutClass : GateClass :=
  ⟨fun _ => GateData.redir { name := some ("login"), setRedirectToIntended := some false }⟩

/-- The pipeline `["noresume"]` whose gate opts out, against `/dashboard`. -/
def wOptOutState : GKState :=
  GateKeeper.setRouteData
    (GateKeeper.init (GatesArg.one (Sum.inl ("noresume")))
      (some [("noresume", wOptOutClass)]))
    (some { fullPath := some ("/dashboard") })

/-- Witness for the amended C3: with `fullPath = "/dashboard"` the returned
redirect carries `query.redirect = "/dashboard"`; with
`setRedirectToIntended: false` the redirect comes back unchanged. -/
theorem resume_query_laws_witness :
    (∃ s' tr, GateKeeper.handle wC3State =
      Except.ok (s', some { gate := "auth", data := GateData.redir { name := some ("login"), query := some [("redirect", "/dashboard")] } }, tr)) ∧
    (∃ s' tr, GateKeeper.handle wOptOutState =
      Except.ok (s', some { gate := "noresume", data := GateData.redir { name := some ("login"), setRedirectToIntended := some false } }, tr)) :=
  ⟨(resume_query_laws wC3State 0 { name := "auth" } { name := some ("login") }
      (fun j gj hj _ => absurd hj (Nat.not_lt_zero j)) rfl
      ⟨wLoginClass.behave, rfl, rfl⟩).1 ("/dashboard") rfl (by decide) (by decide),
   (resume_query_laws wOptOutState 0 { name := "noresume" }
      { name := some ("login"), setRedirectToIntended := some false }
      (fun j gj hj _ => absurd hj (Nat.not_lt_zero j)) rfl
      ⟨wOptOutClass.behave, rfl, rfl⟩).2 rfl⟩

/-- C10: when the resume parameter is attached to a denying gate's redirect,
the whole `query` object is replaced by a fresh one holding only the
`redirect` key — any pre-existing query parameters are discarded — while
every other field of the redirect is left unchanged. -/
theorem resume_attachment_overwrites_query
    (s : GKState) (k : Nat) (gk : Gate) (r : Redirect) (fp : String)
    (hpre : ∀ j gj, j < k → s.gates.get? j = some gj →
      evalsTo s s.routeData gj GateData.undef)
    (hk : s.gates.get? k = some gk)
    (hd : evalsTo s s.routeData gk (GateData.redir r))
    (hfp : fullPathOf s.routeData = some fp) (hne : fp ≠ "")
    (hsri : r.setRedirectToIntended ≠ some false) :
    ∃ s' tr, GateKeeper.handle s =
      Except.ok (s', some { gate := gk.name, data := GateData.redir { path := r.path, name := r.name, setRedirectToIntended := r.setRedirectToIntended, query := some [("redirect", fp)] } }, tr) := by
  have ht : GateKeeper.transformData s.routeData (GateData.redir r) =
      Except.ok (GateData.redir { r with query := some [("redirect", fp)] }) := by
    simp only [GateKeeper.transformData, hfp]
    rw [if_pos ⟨hsri, hne⟩]
  obtain ⟨s', heq⟩ :=
    handle_first_denial s k gk (GateData.redir r) _ hpre hk hd (by simp) ht
  exact ⟨s', List.range' 0 (k + 1), heq⟩

/-- A gate class denying with a redirect that already carries query
parameters and explicit fields. -/
def wQueryClass : GateClass :=
  ⟨fun _ => GateData.redir { path := some ("/login"), setRedirectToIntended := some true, query := some [("a", "b")] }⟩

/-- The pipeline `["q"]` with the query-carrying denier, against `/home`. -/
def wC10State : GKState :=
  GateKeeper.setRouteData
    (GateKeeper.init (GatesArg.one (Sum.inl ("q")))
      (some [("q", wQueryClass)]))
    (some { fullPath := some ("/home") })

/-- Witness for C10: the pre-existing `query` `[("a", "b")]` is discarded,
`query` becomes exactly `{ redirect: "/home" }`, and `path` and
`setRedirectToIntended` are untouched. -/
theorem resume_attachment_overwrites_query_witness :
    ∃ s' tr, GateKeeper.handle wC10State =
      Except.ok (s', some { gate := "q", data := GateData.redir { path := some ("/login"), name := none, setRedirectToIntended := some true, query := some [("redirect", "/home")] } }, tr) :=
  resume_attachment_overwrites_query wC10State 0 { name := "q" }
    { path := some ("/login"), setRedirectToIntended := some true, query := some [("a", "b")] }
    "/home" (fun j gj hj _ => absurd hj (Nat.not_lt_zero j)) rfl
    ⟨wQueryClass.behave, rfl, rfl⟩ rfl (by decide) (by decide)

/-- C4: a pipeline configured with a gate name for which no factory is
registered (and, `gateClasses` starting empty on construction, no cached
instance exists) rejects the whole run with the unknown-gate `Error` as soon
as that gate is reached; the missing gate is never treated as having
passed. (Dynamic module loading is never consulted: `handle` calls only
`handleGate`, which throws — see `no_dynamic_fallback_in_handleGate`.) -/
theorem unknown_gate_rejects_run (gs : GatesArg)
    (gi : Option (List (String × GateClass))) (rd : Option RouteData)
    (s : GKState) (k : Nat) (gk : Gate)
    (hs : s = GateKeeper.setRouteData (GateKeeper.init gs gi) rd)
    (hpre : ∀ j gj, j < k → s.gates.get? j = some gj →
      evalsTo s s.routeData gj GateData.undef)
    (hk : s.gates.get? k = some gk)
    (hmiss : ∀ m, gi = some m → getEntry m gk.name = none) :
    GateKeeper.handle s = Except.error (unknownGateMsg gk.name) := by
  have hcache : getEntry s.gateClasses gk.name = none := by rw [hs]; rfl
  have hgi : s.gateInstances = gi := by rw [hs]; rfl
  have hres : resolveB s gk.name = none := by
    simp only [resolveB, hcache, hgi]
    cases hgim : gi with
    | none => rfl
    | some m => simp [hmiss m hgim]
  have hlen : k < s.gates.length := get_some_lt _ _ _ hk
  obtain ⟨sk, hresk, _, _, _, _, heq⟩ :=
    handleAux_pass_prefix s.routeData k s.gates s 0 hpre (Nat.le_of_lt hlen)
  rw [drop_of_get _ _ _ hk] at heq
  have herr : GateKeeper.handleAux s.routeData sk (0 + k)
      (gk :: s.gates.drop (k + 1)) = Except.error (unknownGateMsg gk.name) :=
    handleAux_cons_err _ _ _ _ _ _
      (handleGate_err _ (by rw [hresk gk.name]; exact hres))
  show GateKeeper.handleAux s.routeData s 0 s.gates = _
  rw [heq, herr]
  rfl

/-- Witness for C4: pipeline `["first", "missing"]` where only `"first"` is
registered; the run rejects with the unknown-gate message for `"missing"`. -/
theorem unknown_gate_rejects_run_witness :
    GateKeeper.handle (GateKeeper.setRouteData (GateKeeper.init (GatesArg.many [Sum.inl ("first"), Sum.inl ("missing")]) (some [("first", wPassClass)])) none) =
      Except.error (unknownGateMsg ("missing")) :=
  unknown_gate_rejects_run
    (GatesArg.many [Sum.inl ("first"), Sum.inl ("missing")])
    (some [("first", wPassClass)]) none _ 1 { name := "missing" } rfl
    (by
      intro j gj hj hget
      have hj0 : j = 0 := by omega
      subst hj0
      have hgj : gj = { name := "first" } := Option.some.inj hget.symm
      subst hgj
      exact ⟨wPassClass.behave, rfl, rfl⟩)
    rfl
    (by intro m hm; cases Option.some.inj hm; rfl)

/-- A freshly constructed GateKeeper with no gates and no factories. -/
def wEmptyState : GKState := GateKeeper.init (GatesArg.many []) none

/-- C5: resolving the same gate name twice through `addOrGetGateClass` yields
the identical gate instance, the gate class's constructor runs exactly once
(the identity counter grows by exactly one over both resolutions), and at
most one cache entry per name ever exists — both directly after the
resolutions and across any subsequent successful `handle` run. -/
theorem gate_registry_caches_single_instance (s : GKState) (name : String)
    (cls : GateClass) (h : getEntry s.gateClasses name = none) :
    (GateKeeper.addOrGetGateClass (GateKeeper.addOrGetGateClass s name cls).1 name cls).2 = (GateKeeper.addOrGetGateClass s name cls).2 ∧
    (GateKeeper.addOrGetGateClass (GateKeeper.addOrGetGateClass s name cls).1 name cls).1 = (GateKeeper.addOrGetGateClass s name cls).1 ∧
    (GateKeeper.addOrGetGateClass s name cls).1.nextId = s.nextId + 1 ∧
    (∀ n, countKey s.gateClasses n ≤ 1 → countKey (GateKeeper.addOrGetGateClass s name cls).1.gateClasses n ≤ 1) ∧
    (∀ rd gs i s' r tr, GateKeeper.handleAux rd (GateKeeper.addOrGetGateClass s name cls).1 i gs = Except.ok (s', r, tr) → (∀ n, countKey s.gateClasses n ≤ 1) → ∀ n, countKey s'.gateClasses n ≤ 1) := by
  have e1 : GateKeeper.addOrGetGateClass s name cls = ({ s with gateClasses := setEntry s.gateClasses name { instId := s.nextId, options := some {}, behave := cls.behave }, nextId := s.nextId + 1 }, { instId := s.nextId, options := some {}, behave := cls.behave }) := by
    simp [GateKeeper.addOrGetGateClass, h]
  have e2 := getEntry_setEntry_self s.gateClasses name
    ({ instId := s.nextId, options := some {}, behave := cls.behave } : GateInstance)
  have e3 : GateKeeper.addOrGetGateClass (GateKeeper.addOrGetGateClass s name cls).1 name cls = ((GateKeeper.addOrGetGateClass s name cls).1, { instId := s.nextId, options := some {}, behave := cls.behave }) := by
    rw [e1]
    simp [GateKeeper.addOrGetGateClass, e2]
  refine ⟨?_, ?_, ?_, ?_, ?_⟩
  · rw [e3, e1]
  · rw [e3]
  · rw [e1]
  · intro n hn
    rw [e1]
    exact countKey_setEntry_le_one _ _ _ _ hn
  · intro rd gs i s' r tr hrun hb
    obtain ⟨_, _, _, _, hcnt⟩ := handleAux_ok_state rd gs _ i s' r tr hrun
    intro n
    apply hcnt n
    rw [e1]
    exact countKey_setEntry_le_one _ _ _ _ (hb n)

/-- Witness for C5 on a fresh registry and the name `"auth"`. -/
theorem gate_registry_caches_single_instance_witness :
    (GateKeeper.addOrGetGateClass (GateKeeper.addOrGetGateClass wEmptyState ("auth") wPassClass).1 ("auth") wPassClass).2 = (GateKeeper.addOrGetGateClass wEmptyState ("auth") wPassClass).2 ∧
    (GateKeeper.addOrGetGateClass (GateKeeper.addOrGetGateClass wEmptyState ("auth") wPassClass).1 ("auth") wPassClass).1 = (GateKeeper.addOrGetGateClass wEmptyState ("auth") wPassClass).1 ∧
    (GateKeeper.addOrGetGateClass wEmptyState ("auth") wPassClass).1.nextId = wEmptyState.nextId + 1 ∧
    (∀ n, countKey wEmptyState.gateClasses n ≤ 1 → countKey (GateKeeper.addOrGetGateClass wEmptyState ("auth") wPassClass).1.gateClasses n ≤ 1) ∧
    (∀ rd gs i s' r tr, GateKeeper.handleAux rd (GateKeeper.addOrGetGateClass wEmptyState ("auth") wPassClass).1 i gs = Except.ok (s', r, tr) → (∀ n, countKey wEmptyState.gateClasses n ≤ 1) → ∀ n, countKey s'.gateClasses n ≤ 1) :=
  gate_registry_caches_single_instance wEmptyState ("auth") wPassClass rfl

/-- A module system in which every gate name is dynamically loadable. -/
def wDynImport : String → Option GateClass := fun _ => some wPassClass

/-- The pipeline `["camera"]` with an empty (but present) `gateInstances`
map, so the gate is neither cached nor registered. -/
def wDynState : GKState :=
  GateKeeper.setRouteData
    (GateKeeper.init (GatesArg.one (Sum.inl ("camera"))) (some [])) none

/-- Counterexample to C6 as stated: `"camera"` has no cached instance and no
registered factory, and a module for it is dynamically loadable
(`loadGateFromGateKeeper` would succeed), yet `handle()` rejects with the
unknown-gate error instead of falling back to dynamic loading — the loader is
dead code, never invoked by `handle`. -/
theorem handle_fails_despite_loadable_module :
    GateKeeper.handle wDynState = Except.error (unknownGateMsg ("camera")) ∧
    (∃ s' d, GateKeeper.loadGateFromGateKeeper wDynImport wDynState ("camera") {} = Except.ok (s', d)) :=
  ⟨rfl, ⟨_, _, rfl⟩⟩

/-- C6 (amended: `handle()` never falls back to dynamic loading): resolving a
gate with no cached instance and no `gateInstances` factory throws the
unknown-gate error, even when a module for that name is dynamically loadable
— in which case the (never-invoked) `loadGateFromGateKeeper` would have
registered, cached and evaluated the gate. -/
theorem no_dynamic_fallback_in_handleGate
    (dynImport : String → Option GateClass) (s : GKState) (name : String)
    (opts : EvalOptions) (hc : getEntry s.gateClasses name = none)
    (hf : ∀ m, s.gateInstances = some m → getEntry m name = none) :
    GateKeeper.handleGate s name opts = Except.error (unknownGateMsg name) ∧
    (∀ cls m, dynImport name = some cls → s.gateInstances = some m →
      ∃ s' d, GateKeeper.loadGateFromGateKeeper dynImport s name opts = Except.ok (s', d)) := by
  constructor
  · apply handleGate_err
    simp only [resolveB, hc]
    cases hgi : s.gateInstances with
    | none => rfl
    | some m => simp [hf m hgi]
  · intro cls m hdyn hgi
    refine ⟨{ s with gateInstances := some (setEntry m name cls), gateClasses := setEntry (setEntry s.gateClasses name ⟨s.nextId, some {}, cls.behave⟩) name ⟨s.nextId, some opts, cls.behave⟩, nextId := s.nextId + 1 }, cls.behave opts, ?_⟩
    simp only [GateKeeper.loadGateFromGateKeeper, hdyn, hgi, hf m hgi,
      GateKeeper.addOrGetGateClass, hc, getEntry_setEntry_self]

/-- Witness for the amended C6 at the concrete `wDynState`. -/
theorem no_dynamic_fallback_witness :
    GateKeeper.handleGate wDynState ("camera") {} = Except.error (unknownGateMsg ("camera")) ∧
    (∃ s' d, GateKeeper.loadGateFromGateKeeper wDynImport wDynState ("camera") {} = Except.ok (s', d)) :=
  ⟨(no_dynamic_fallback_in_handleGate wDynImport wDynState ("camera") {} rfl
      (fun m hm => by cases Option.some.inj hm; rfl)).1,
   (no_dynamic_fallback_in_handleGate wDynImport wDynState ("camera") {} rfl
      (fun m hm => by cases Option.some.inj hm; rfl)).2 wPassClass [] rfl rfl⟩

/-- Counterexample to C8 as stated: `setGates` turns the bare string
`"auth"` into `{ name: "auth" }` with the `options` key absent
(`none`), which is not a gate reference with an empty options mapping
(`some []`). -/
theorem string_gate_normalized_without_options :
    (GateKeeper.setGates wEmptyState (GatesArg.many [Sum.inl ("auth")])).gates = [{ name := "auth", options := none }] ∧
    [({ name := "auth", options := none } : Gate)] ≠ [({ name := "auth", options := some [] } : Gate)] :=
  ⟨rfl, by decide⟩

/-- C8 (amended: a bare string is normalized to a gate reference with that
name and *no* options — the `options` key is left absent, not set to an
empty mapping): `setGates` maps each element of the (possibly singular)
argument through `convertStringGateToObject` and installs the resulting
fresh list as the whole gate list, independent of the previously held
gates. -/
theorem setGates_normalizes_and_replaces (s : GKState) (arg : GatesArg) :
    (GateKeeper.setGates s arg).gates = List.map GateKeeper.convertStringGateToObject (GateKeeper.convertSingularGateToArray arg) ∧
    (∀ nm, GateKeeper.convertStringGateToObject (Sum.inl nm) = { name := nm, options := none }) ∧
    (∀ g, GateKeeper.convertStringGateToObject (Sum.inr g) = g) ∧
    (∀ t : GKState, (GateKeeper.setGates s arg).gates = (GateKeeper.setGates t arg).gates) :=
  ⟨rfl, fun _ => rfl, fun _ => rfl, fun _ => rfl⟩
